import Mathlib

/-!
Shallow embedding of the algorithmic core of `src/scripts.js` (the Catalyst
landing page): the particle Motion Engine (`ParticleSystem`), the Typewriter
Engine (`TypingEffect`), and the application-initialization boundary
(`CatalystApp.initializeComponents`).

JavaScript numbers are modelled as real numbers; the DOM render sink is
modelled as an explicit list of emitted render events; the `requestAnimationFrame`
/ `setTimeout` recursion is modelled as an explicit step function iterated from
the initial state.
-/

/-- One animated point of the Motion Engine: the fields of the record pushed
into `this.particles` by `ParticleSystem.createParticles` (the DOM element is
represented by its rendered position, emitted separately as render events). -/
structure Particle where
  x : ℝ
  y : ℝ
  vx : ℝ
  vy : ℝ
  size : ℝ
  opacity : ℝ

/-- Constant `CONFIG.particles.speed`. -/
def particleSpeed : ℝ := 0.5

/-- Constant `CONFIG.particles.size.min`. -/
def particleSizeMin : ℝ := 2

/-- Constant `CONFIG.particles.size.max`. -/
def particleSizeMax : ℝ := 6

/-- Utility `random(min, max) = Math.random() * (max - min) + min`; the `Math.random()`
draw `r` (a value in `[0, 1)`) is passed explicitly. -/
def random (lo hi r : ℝ) : ℝ := r * (hi - lo) + lo

/-- One particle as built by `ParticleSystem.createParticles`, with the six
`Math.random()` draws passed explicitly; `w`, `h` are
`window.innerWidth` / `window.innerHeight`. -/
def createParticle (w h rx ry rvx rvy rs ro : ℝ) : Particle :=
  { x := random 0 w rx
    y := random 0 h ry
    vx := random (-particleSpeed) particleSpeed rvx
    vy := random (-particleSpeed) particleSpeed rvy
    size := random particleSizeMin particleSizeMax rs
    opacity := random 0.1 0.5 ro }

/-- Statement `particle.x += particle.vx; particle.y += particle.vy` (animate, position
update). -/
def moveParticle (p : Particle) : Particle :=
  { p with x := p.x + p.vx, y := p.y + p.vy }

open Classical in
/-- The x-axis bounce of `ParticleSystem.animate`:
`if (particle.x <= 0 || particle.x >= window.innerWidth) { particle.vx *= -1;
particle.x = Math.max(0, Math.min(window.innerWidth, particle.x)); }`. -/
noncomputable def bounceX (w : ℝ) (p : Particle) : Particle :=
  if p.x ≤ 0 ∨ p.x ≥ w then { p with vx := -p.vx, x := max 0 (min w p.x) } else p

open Classical in
/-- The y-axis bounce of `ParticleSystem.animate`. -/
noncomputable def bounceY (h : ℝ) (p : Particle) : Particle :=
  if p.y ≤ 0 ∨ p.y ≥ h then { p with vy := -p.vy, y := max 0 (min h p.y) } else p

/-- Expression `const distance = Math.sqrt(dx * dx + dy * dy)` for pointer `(mx, my)` and
particle `p` (with `dx = mx - p.x`, `dy = my - p.y`). -/
noncomputable def pointerDistance (mx my : ℝ) (p : Particle) : ℝ :=
  Real.sqrt ((mx - p.x) * (mx - p.x) + (my - p.y) * (my - p.y))

open Classical in
/-- The mouse-interaction block of `ParticleSystem.animate`:
`if (distance < 100) { const force = (100 - distance) / 100;
particle.vx -= dx * force * 0.01; particle.vy -= dy * force * 0.01; }`. -/
noncomputable def pointerForce (mx my : ℝ) (p : Particle) : Particle :=
  let dx := mx - p.x
  let dy := my - p.y
  let distance := Real.sqrt (dx * dx + dy * dy)
  if distance < 100 then
    let force := (100 - distance) / 100
    { p with vx := p.vx - dx * force * 0.01, vy := p.vy - dy * force * 0.01 }
  else p

/-- One full per-tick update of a single particle in `ParticleSystem.animate`:
position update, then x/y boundary bounce, then pointer force; the final
position is then pushed to the render sink. -/
noncomputable def tickParticle (w h mx my : ℝ) (p : Particle) : Particle :=
  pointerForce mx my (bounceY h (bounceX w (moveParticle p)))

open Classical in
/-- Statement `if (particle.x > window.innerWidth) particle.x = window.innerWidth;`
(ParticleSystem.handleResize, x clause). -/
noncomputable def resizeX (w : ℝ) (p : Particle) : Particle :=
  if p.x > w then { p with x := w } else p

open Classical in
/-- Statement `if (particle.y > window.innerHeight) particle.y = window.innerHeight;`
(ParticleSystem.handleResize, y clause). -/
noncomputable def resizeY (h : ℝ) (p : Particle) : Particle :=
  if p.y > h then { p with y := h } else p

/-- Method `ParticleSystem.handleResize` applied to one particle. -/
noncomputable def handleResize (w h : ℝ) (p : Particle) : Particle :=
  resizeY h (resizeX w p)

/-- The particle's position lies within the viewport `[0, w] × [0, h]`. -/
def inBounds (w h : ℝ) (p : Particle) : Prop :=
  0 ≤ p.x ∧ p.x ≤ w ∧ 0 ≤ p.y ∧ p.y ≤ h

/-- Whole-`ParticleSystem` state: the particle list, the tracked pointer
(`this.mouse`), the viewport, and the number of particle elements currently
attached to the `#particles` container. -/
structure PSystem where
  particles : List Particle
  mouseX : ℝ
  mouseY : ℝ
  viewportW : ℝ
  viewportH : ℝ
  containerChildCount : Nat

/-- Method `ParticleSystem.destroy`: `this.container.innerHTML = ''` — it clears the
container's children and nothing else (the particle list, and the pending
animation-frame chain, are untouched). -/
def psDestroy (s : PSystem) : PSystem :=
  { s with containerChildCount := 0 }

/-- One `ParticleSystem.animate` frame on the whole system: every particle is
updated by `tickParticle` and its new position is pushed to the render sink
(the returned list of `(x, y)` render events, one per particle — `animate` has
no disposed-guard, so this happens on every frame unconditionally); the frame
then reschedules itself. -/
noncomputable def psTick (s : PSystem) : PSystem × List (ℝ × ℝ) :=
  let newParticles := s.particles.map (tickParticle s.viewportW s.viewportH s.mouseX s.mouseY)
  ({ s with particles := newParticles }, newParticles.map (fun p => (p.x, p.y)))

/-- The `ParticleSystem` constructor: `if (!this.container || prefersReducedMotion())
return;` else `this.init()` (which creates the particles and starts the animate
loop). `draws` is the particle list `createParticles` would build; the returned
Bool records whether the animate loop was started (any tick ever scheduled). -/
def particleSystemConstruct (hasContainer reducedMotion : Bool)
    (draws : List Particle) : List Particle × Bool :=
  if !hasContainer || reducedMotion then ([], false)
  else (draws, true)

/-- The `TypingEffect` mutable state: `textIndex`, `charIndex`, `isDeleting`,
`isPaused`. `charIndex` is an integer (a JavaScript number), not a priori a
valid index. -/
structure TypingState where
  textIndex : Nat
  charIndex : Int
  isDeleting : Bool
  isPaused : Bool
  deriving DecidableEq, Repr

/-- Expression `currentText.substring(0, e)`: the first `e` characters (negative `e`
clamps to `0`, `e` past the end clamps to the whole string). -/
def substring0 (s : String) (e : Int) : String :=
  ⟨s.data.take e.toNat⟩

/-- Lookup `texts[i]` for the typewriter (in all reachable states `i` is in range). -/
def textAt (texts : List String) (i : Nat) : String :=
  texts.getD i ""

/-- One `TypingEffect.type` invocation: if paused it does nothing and does not
reschedule (output `none`); otherwise it renders one more / one fewer character
of `texts[textIndex]` (the returned `Option String` is the text pushed to the
render sink), flips `isDeleting` at the two boundary conditions, and advances
`textIndex` cyclically when a phrase has been fully erased. -/
def typeStep (texts : List String) (s : TypingState) : TypingState × Option String :=
  if s.isPaused then (s, none)
  else
    let currentText := textAt texts s.textIndex
    if s.isDeleting then
      let out := substring0 currentText (s.charIndex - 1)
      let s1 : TypingState := { s with charIndex := s.charIndex - 1 }
      if s1.charIndex = 0 then
        ({ s1 with isDeleting := false, textIndex := (s1.textIndex + 1) % texts.length },
         some out)
      else (s1, some out)
    else
      let out := substring0 currentText (s.charIndex + 1)
      let s1 : TypingState := { s with charIndex := s.charIndex + 1 }
      if s1.charIndex = (currentText.length : Int) then
        ({ s1 with isDeleting := true }, some out)
      else (s1, some out)

/-- The `TypingEffect` initial state: `textIndex = 0`, `charIndex = 0`,
`isDeleting = false`, `isPaused = false`. -/
def typingInitState : TypingState :=
  { textIndex := 0, charIndex := 0, isDeleting := false, isPaused := false }

/-- The typewriter state after `n` steps from the initial state. -/
def typingStateAt (texts : List String) : Nat → TypingState
  | 0 => typingInitState
  | n + 1 => (typeStep texts (typingStateAt texts n)).1

/-- The text rendered by step `n + 1` (the step taken from `typingStateAt n`). -/
def typingOutputAt (texts : List String) (n : Nat) : Option String :=
  (typeStep texts (typingStateAt texts n)).2

/-- The `TypingEffect` constructor: `if (prefersReducedMotion()) {
this.element.textContent = this.texts[0]; return; } this.type();` — returns the
text rendered at construction and whether any animation step was scheduled. -/
def typingConstruct (reducedMotion : Bool) (texts : List String) :
    Option String × Bool :=
  if reducedMotion then (some texts.headI, false)
  else ((typeStep texts typingInitState).2, true)

/-- The invariant maintained by `typeStep` on reachable states (for a phrase
list whose phrases are all non-empty): the index is in range, `charIndex` is a
valid prefix length, strictly below the phrase length while typing and at least
`1` while deleting. -/
def TypingInv (texts : List String) (s : TypingState) : Prop :=
  s.isPaused = false ∧
  s.textIndex < texts.length ∧
  0 ≤ s.charIndex ∧
  (s.isDeleting = true →
    1 ≤ s.charIndex ∧ s.charIndex ≤ ((textAt texts s.textIndex).length : Int)) ∧
  (s.isDeleting = false → s.charIndex < ((textAt texts s.textIndex).length : Int))

/-- Method `CatalystApp.initializeComponents`: the component constructors run in
sequence inside a single `try { ... } catch (error) { console.error(...) }`.
Each setup either succeeds (`Except.ok`) or throws (`Except.error`); the result
is the number of setups that ran to completion and the error caught and logged
at the boundary, if any. A thrown exception transfers control to the `catch`,
so the setups after the throwing one never run. -/
def runInit {ε : Type} : List (Except ε Unit) → Nat × Option ε
  | [] => (0, none)
  | Except.ok _ :: rest =>
    let r := runInit rest
    (r.1 + 1, r.2)
  | Except.error e :: _ => (0, some e)

/-! ### Helper lemmas about the Motion Engine step functions -/

theorem sqrt_eq_of_sq (a b : ℝ) (hb : 0 ≤ b) (h : b ^ 2 = a) : Real.sqrt a = b := by
  rw [← h, Real.sqrt_sq hb]

theorem bounceX_of_hit (w : ℝ) (p : Particle) (h : p.x ≤ 0 ∨ p.x ≥ w) :
    bounceX w p = { p with vx := -p.vx, x := max 0 (min w p.x) } := by
  simp only [bounceX]
  rw [if_pos h]

theorem bounceX_of_miss (w : ℝ) (p : Particle) (h : ¬(p.x ≤ 0 ∨ p.x ≥ w)) :
    bounceX w p = p := by
  simp only [bounceX]
  rw [if_neg h]

theorem bounceY_of_hit (h : ℝ) (p : Particle) (hy : p.y ≤ 0 ∨ p.y ≥ h) :
    bounceY h p = { p with vy := -p.vy, y := max 0 (min h p.y) } := by
  simp only [bounceY]
  rw [if_pos hy]

theorem bounceY_of_miss (h : ℝ) (p : Particle) (hy : ¬(p.y ≤ 0 ∨ p.y ≥ h)) :
    bounceY h p = p := by
  simp only [bounceY]
  rw [if_neg hy]

theorem bounceX_keeps_y (w : ℝ) (p : Particle) : (bounceX w p).y = p.y := by
  simp only [bounceX]; split <;> rfl

theorem bounceX_keeps_vy (w : ℝ) (p : Particle) : (bounceX w p).vy = p.vy := by
  simp only [bounceX]; split <;> rfl

theorem bounceY_keeps_x (h : ℝ) (p : Particle) : (bounceY h p).x = p.x := by
  simp only [bounceY]; split <;> rfl

theorem bounceY_keeps_vx (h : ℝ) (p : Particle) : (bounceY h p).vx = p.vx := by
  simp only [bounceY]; split <;> rfl

theorem bounceX_x_mem (w : ℝ) (hw : 0 ≤ w) (p : Particle) :
    0 ≤ (bounceX w p).x ∧ (bounceX w p).x ≤ w := by
  simp only [bounceX]
  split
  · exact ⟨le_max_left _ _, max_le hw (min_le_left _ _)⟩
  · rename_i hm
    push_neg at hm
    exact ⟨le_of_lt hm.1, le_of_lt hm.2⟩

theorem bounceY_y_mem (h : ℝ) (hh : 0 ≤ h) (p : Particle) :
    0 ≤ (bounceY h p).y ∧ (bounceY h p).y ≤ h := by
  simp only [bounceY]
  split
  · exact ⟨le_max_left _ _, max_le hh (min_le_left _ _)⟩
  · rename_i hm
    push_neg at hm
    exact ⟨le_of_lt hm.1, le_of_lt hm.2⟩

theorem pointerForce_of_lt (mx my : ℝ) (p : Particle)
    (h : pointerDistance mx my p < 100) :
    pointerForce mx my p =
      { p with
        vx := p.vx - (mx - p.x) * ((100 - pointerDistance mx my p) / 100) * 0.01,
        vy := p.vy - (my - p.y) * ((100 - pointerDistance mx my p) / 100) * 0.01 } := by
  simp only [pointerDistance] at h ⊢
  simp only [pointerForce]
  rw [if_pos h]

theorem pointerForce_of_ge (mx my : ℝ) (p : Particle)
    (h : ¬ pointerDistance mx my p < 100) :
    pointerForce mx my p = p := by
  simp only [pointerDistance] at h
  simp only [pointerForce]
  rw [if_neg h]

theorem pointerForce_keeps_x (mx my : ℝ) (p : Particle) :
    (pointerForce mx my p).x = p.x := by
  by_cases h : pointerDistance mx my p < 100
  · rw [pointerForce_of_lt mx my p h]
  · rw [pointerForce_of_ge mx my p h]

theorem pointerForce_keeps_y (mx my : ℝ) (p : Particle) :
    (pointerForce mx my p).y = p.y := by
  by_cases h : pointerDistance mx my p < 100
  · rw [pointerForce_of_lt mx my p h]
  · rw [pointerForce_of_ge mx my p h]

theorem abs_dx_le_pointerDistance (mx my : ℝ) (p : Particle) :
    |mx - p.x| ≤ pointerDistance mx my p := by
  rw [← Real.sqrt_sq_eq_abs]
  exact Real.sqrt_le_sqrt (by nlinarith [sq_nonneg (my - p.y)])

theorem abs_dy_le_pointerDistance (mx my : ℝ) (p : Particle) :
    |my - p.y| ≤ pointerDistance mx my p := by
  rw [← Real.sqrt_sq_eq_abs]
  exact Real.sqrt_le_sqrt (by nlinarith [sq_nonneg (mx - p.x)])

theorem impulse_abs_le (a d : ℝ) (ha : |a| ≤ d) (_h0 : 0 ≤ d) (h100 : d < 100) :
    |a * ((100 - d) / 100) * 0.01| ≤ 1 / 4 := by
  rw [abs_mul, abs_mul, abs_of_nonneg (show (0:ℝ) ≤ (100 - d) / 100 by linarith),
    show |(0.01 : ℝ)| = 0.01 from abs_of_nonneg (by norm_num)]
  nlinarith [sq_nonneg (d - 50), abs_nonneg a,
    mul_le_mul_of_nonneg_right ha (show (0:ℝ) ≤ (100 - d) / 100 by linarith)]

theorem pointerDistance_far_example : pointerDistance 200 0 ⟨0, 0, 3, 4, 2, 1/4⟩ = 200 := by
  simp only [pointerDistance]
  norm_num
  exact sqrt_eq_of_sq 40000 200 (by norm_num) (by norm_num)

theorem pointerDistance_near_example : pointerDistance 50 0 ⟨0, 0, 0, 0, 2, 1/4⟩ = 50 := by
  simp only [pointerDistance]
  norm_num
  exact sqrt_eq_of_sq 2500 50 (by norm_num) (by norm_num)

/-! ### Claim theorems: Motion Engine pointer force -/

/-- C1 counterexample: with the particle at the origin and the pointer at
`(50, 0)` (distance `50 < 100`), the toward-pointer direction has positive
x-component, but the applied velocity delta has negative x-component and zero
y-component — the impulse pushes the particle away from the pointer, so it does
not point from the particle toward the pointer. -/
theorem pointer_delta_not_toward_counterexample :
    pointerDistance 50 0 ⟨0, 0, 0, 0, 2, 1/4⟩ < 100 ∧
    (0 : ℝ) < 50 - (⟨0, 0, 0, 0, 2, 1/4⟩ : Particle).x ∧
    (pointerForce 50 0 ⟨0, 0, 0, 0, 2, 1/4⟩).vx < 0 ∧
    (pointerForce 50 0 ⟨0, 0, 0, 0, 2, 1/4⟩).vy = 0 := by
  have hd := pointerDistance_near_example
  have hlt : pointerDistance 50 0 ⟨0, 0, 0, 0, 2, 1/4⟩ < 100 := by rw [hd]; norm_num
  have hf := pointerForce_of_lt 50 0 ⟨0, 0, 0, 0, 2, 1/4⟩ hlt
  refine ⟨hlt, by norm_num, ?_, ?_⟩
  · rw [hf]
    show (0 : ℝ) - (50 - 0) * ((100 - pointerDistance 50 0 ⟨0, 0, 0, 0, 2, 1/4⟩) / 100) * 0.01 < 0
    rw [hd]; norm_num
  · rw [hf]
    show (0 : ℝ) - (0 - 0) * ((100 - pointerDistance 50 0 ⟨0, 0, 0, 0, 2, 1/4⟩) / 100) * 0.01 = 0
    ring

/-- C1 (amended): when `distance < 100`, the velocity delta has exactly the
components `-dx * force * 0.01` and `-dy * force * 0.01` with
`force = (100 - distance) / 100`, and it points from the pointer toward the
particle (a repulsion impulse): its dot product with the toward-pointer vector
`(dx, dy)` is nonpositive. -/
theorem pointer_delta_is_repulsion (mx my : ℝ) (p : Particle)
    (h : pointerDistance mx my p < 100) :
    (pointerForce mx my p).vx - p.vx =
      -((mx - p.x) * ((100 - pointerDistance mx my p) / 100) * 0.01) ∧
    (pointerForce mx my p).vy - p.vy =
      -((my - p.y) * ((100 - pointerDistance mx my p) / 100) * 0.01) ∧
    ((pointerForce mx my p).vx - p.vx) * (mx - p.x) +
      ((pointerForce mx my p).vy - p.vy) * (my - p.y) ≤ 0 := by
  rw [pointerForce_of_lt mx my p h]
  refine ⟨by ring, by ring, ?_⟩
  have hf : 0 ≤ (100 - pointerDistance mx my p) / 100 := by linarith
  show (p.vx - (mx - p.x) * ((100 - pointerDistance mx my p) / 100) * 0.01 - p.vx) * (mx - p.x) +
    (p.vy - (my - p.y) * ((100 - pointerDistance mx my p) / 100) * 0.01 - p.vy) * (my - p.y) ≤ 0
  nlinarith [mul_nonneg hf (add_nonneg (mul_self_nonneg (mx - p.x)) (mul_self_nonneg (my - p.y)))]

/-- C1 witness: the repulsion theorem applied at the particle `(0,0)` and
pointer `(50, 0)`. -/
theorem pointer_delta_is_repulsion_witness :
    pointerDistance 50 0 ⟨0, 0, 0, 0, 2, 1/4⟩ < 100 ∧
    ((pointerForce 50 0 ⟨0, 0, 0, 0, 2, 1/4⟩).vx - (⟨0, 0, 0, 0, 2, 1/4⟩ : Particle).vx) *
        (50 - (⟨0, 0, 0, 0, 2, 1/4⟩ : Particle).x) +
      ((pointerForce 50 0 ⟨0, 0, 0, 0, 2, 1/4⟩).vy - (⟨0, 0, 0, 0, 2, 1/4⟩ : Particle).vy) *
        (0 - (⟨0, 0, 0, 0, 2, 1/4⟩ : Particle).y) ≤ 0 := by
  have hlt : pointerDistance 50 0 ⟨0, 0, 0, 0, 2, 1/4⟩ < 100 := by
    rw [pointerDistance_near_example]; norm_num
  exact ⟨hlt, (pointer_delta_is_repulsion 50 0 ⟨0, 0, 0, 0, 2, 1/4⟩ hlt).2.2⟩

/-- C9: if the pointer is at distance at least 100 from the particle, the
pointer-force step leaves both velocity components unchanged. -/
theorem pointer_force_far_unchanged (mx my : ℝ) (p : Particle)
    (h : 100 ≤ pointerDistance mx my p) :
    (pointerForce mx my p).vx = p.vx ∧ (pointerForce mx my p).vy = p.vy := by
  rw [pointerForce_of_ge mx my p (not_lt.mpr h)]
  exact ⟨rfl, rfl⟩

/-- C9 witness: particle `(0,0)` with velocity `(3,4)`, pointer `(200, 0)`,
distance `200 ≥ 100`: the velocity is untouched. -/
theorem pointer_force_far_unchanged_witness :
    100 ≤ pointerDistance 200 0 ⟨0, 0, 3, 4, 2, 1/4⟩ ∧
    (pointerForce 200 0 ⟨0, 0, 3, 4, 2, 1/4⟩).vx = 3 ∧
    (pointerForce 200 0 ⟨0, 0, 3, 4, 2, 1/4⟩).vy = 4 := by
  have hge : 100 ≤ pointerDistance 200 0 ⟨0, 0, 3, 4, 2, 1/4⟩ := by
    rw [pointerDistance_far_example]; norm_num
  exact ⟨hge, pointer_force_far_unchanged 200 0 ⟨0, 0, 3, 4, 2, 1/4⟩ hge⟩

/-- C10: in a single pointer-force step each velocity component changes by at
most `1/4` in absolute value, and not at all when the distance is at least
`100`; unbounded speed can only come from accumulation across ticks. -/
theorem pointer_delta_bounded (mx my : ℝ) (p : Particle) :
    |(pointerForce mx my p).vx - p.vx| ≤ 1 / 4 ∧
    |(pointerForce mx my p).vy - p.vy| ≤ 1 / 4 ∧
    (100 ≤ pointerDistance mx my p →
      (pointerForce mx my p).vx = p.vx ∧ (pointerForce mx my p).vy = p.vy) := by
  by_cases h : pointerDistance mx my p < 100
  · have h0 : 0 ≤ pointerDistance mx my p := Real.sqrt_nonneg _
    have hx := abs_dx_le_pointerDistance mx my p
    have hy := abs_dy_le_pointerDistance mx my p
    rw [pointerForce_of_lt mx my p h]
    refine ⟨?_, ?_, fun hc => absurd h (not_lt.mpr hc)⟩
    · show |p.vx - (mx - p.x) * ((100 - pointerDistance mx my p) / 100) * 0.01 - p.vx| ≤ 1 / 4
      rw [show p.vx - (mx - p.x) * ((100 - pointerDistance mx my p) / 100) * 0.01 - p.vx =
        -((mx - p.x) * ((100 - pointerDistance mx my p) / 100) * 0.01) by ring, abs_neg]
      exact impulse_abs_le _ _ hx h0 h
    · show |p.vy - (my - p.y) * ((100 - pointerDistance mx my p) / 100) * 0.01 - p.vy| ≤ 1 / 4
      rw [show p.vy - (my - p.y) * ((100 - pointerDistance mx my p) / 100) * 0.01 - p.vy =
        -((my - p.y) * ((100 - pointerDistance mx my p) / 100) * 0.01) by ring, abs_neg]
      exact impulse_abs_le _ _ hy h0 h
  · rw [pointerForce_of_ge mx my p h]
    refine ⟨by simp, by simp, fun _ => ⟨rfl, rfl⟩⟩

/-- C10 witness: the bound applied with the pointer at `(200, 0)` and the
particle at the origin (distance `200 ≥ 100`, so the far clause also fires). -/
theorem pointer_delta_bounded_witness :
    |(pointerForce 200 0 ⟨0, 0, 3, 4, 2, 1/4⟩).vx - (⟨0, 0, 3, 4, 2, 1/4⟩ : Particle).vx| ≤ 1 / 4 ∧
    (pointerForce 200 0 ⟨0, 0, 3, 4, 2, 1/4⟩).vx = (⟨0, 0, 3, 4, 2, 1/4⟩ : Particle).vx := by
  refine ⟨(pointer_delta_bounded 200 0 ⟨0, 0, 3, 4, 2, 1/4⟩).1, ?_⟩
  exact ((pointer_delta_bounded 200 0 ⟨0, 0, 3, 4, 2, 1/4⟩).2.2
    (by rw [pointerDistance_far_example]; norm_num)).1

/-! ### Claim theorems: disposal, initialization boundary, reduced motion -/

/-- C2 counterexample: after `destroy` (which only clears the container), the
next animation frame still runs and still pushes a render event for each
particle — with one particle, the post-dispose tick emits a non-empty render
event list, so rendering callbacks do fire after the first dispose. -/
theorem destroy_ticks_still_render_counterexample :
    (psTick (psDestroy ⟨[⟨5, 5, 0, 0, 2, 1/4⟩], 0, 0, 100, 100, 1⟩)).2 ≠ [] := by
  simp [psTick, psDestroy]

/-- C2 (amended): calling `destroy` twice produces no error (`destroy` is
idempotent, and leaves the container empty), but the animation-frame chain is
not cancelled: every tick after disposal still pushes one render event per
particle. -/
theorem destroy_idempotent_but_ticks_continue (s : PSystem) :
    psDestroy (psDestroy s) = psDestroy s ∧
    (psDestroy s).containerChildCount = 0 ∧
    ((psTick (psDestroy s)).2).length = s.particles.length := by
  refine ⟨rfl, rfl, ?_⟩
  simp [psTick, psDestroy]

/-- C3 counterexample: three component setups run inside the single
`try`/`catch` of `initializeComponents`; the second throws. Only one setup
completes — the third component's setup never runs, even though the exception
is caught and logged. -/
theorem init_abort_counterexample :
    runInit [Except.ok (), Except.error 7, Except.ok ()] = (1, some 7) ∧ (1 : Nat) ≠ 2 := by
  exact ⟨rfl, by decide⟩

/-- C3 (amended): a setup exception is caught and logged at the outermost
initialization boundary (initialization as a whole does not crash and returns
the logged error), but the setups after the throwing one are skipped: exactly
the components before the failing one complete. -/
theorem init_catches_then_skips {ε : Type} (pre post : List (Except ε Unit)) (e : ε)
    (hpre : ∀ x ∈ pre, x = Except.ok ()) :
    runInit (pre ++ Except.error e :: post) = (pre.length, some e) := by
  induction pre with
  | nil => rfl
  | cons a rest ih =>
    have ha : a = Except.ok () := hpre a (by simp)
    subst ha
    have hr := ih (fun x hx => hpre x (by simp [hx]))
    simp [runInit, hr]

/-- C3 witness: the amended boundary behavior at a concrete setup list with
the failure in second position. -/
theorem init_catches_then_skips_witness :
    runInit (([Except.ok ()] : List (Except Nat Unit)) ++
        Except.error (9 : Nat) :: [Except.ok (), Except.ok ()]) =
      (([Except.ok ()] : List (Except Nat Unit)).length, some 9) := by
  exact init_catches_then_skips [Except.ok ()] [Except.ok (), Except.ok ()] 9
    (fun x hx => by rw [List.mem_singleton] at hx; exact hx)

/-- C8: with the reduced-motion flag active, the `ParticleSystem` constructor
creates no particles and never starts the animate loop, and the `TypingEffect`
constructor renders the whole first phrase and schedules no step. -/
theorem reduced_motion_static (hasContainer : Bool) (draws : List Particle)
    (texts : List String) :
    particleSystemConstruct hasContainer true draws = ([], false) ∧
    typingConstruct true texts = (some texts.headI, false) := by
  constructor
  · simp [particleSystemConstruct]
  · simp [typingConstruct]

/-! ### Claim theorems: boundary reflection and position invariant -/

/-- C4 counterexample: viewport 200×200, particle at `x = 195` with `vx = 10`,
pointer at `(140, 100)`. The position update puts `x = 205 ≥ 200`, so the claim
requires post-tick `vx = -10`; but the pointer-force step of the same tick
(distance 60 from the clamped position) adds `+0.24`, so the post-tick `vx` is
`-9.76 ≠ -10`. -/
theorem posttick_vx_not_negated_counterexample :
    ((⟨195, 100, 10, 0, 2, 1/4⟩ : Particle).x + (⟨195, 100, 10, 0, 2, 1/4⟩ : Particle).vx ≥ 200) ∧
    (tickParticle 200 200 140 100 ⟨195, 100, 10, 0, 2, 1/4⟩).vx ≠
      -(⟨195, 100, 10, 0, 2, 1/4⟩ : Particle).vx := by
  constructor
  · show (195 : ℝ) + 10 ≥ 200
    norm_num
  · have hmv : moveParticle ⟨195, 100, 10, 0, 2, 1/4⟩ = ⟨205, 100, 10, 0, 2, 1/4⟩ := by
      simp [moveParticle, Particle.mk.injEq]
      norm_num
    have hbx : bounceX 200 (⟨205, 100, 10, 0, 2, 1/4⟩ : Particle) = ⟨200, 100, -10, 0, 2, 1/4⟩ := by
      rw [bounceX_of_hit 200 _ (Or.inr (by norm_num))]
      norm_num [Particle.mk.injEq, min_def, max_def]
    have hby : bounceY 200 (⟨200, 100, -10, 0, 2, 1/4⟩ : Particle) = ⟨200, 100, -10, 0, 2, 1/4⟩ :=
      bounceY_of_miss 200 _ (by norm_num)
    have hd : pointerDistance 140 100 (⟨200, 100, -10, 0, 2, 1/4⟩ : Particle) = 60 := by
      simp only [pointerDistance]
      norm_num
      exact sqrt_eq_of_sq 3600 60 (by norm_num) (by norm_num)
    have hlt : pointerDistance 140 100 (⟨200, 100, -10, 0, 2, 1/4⟩ : Particle) < 100 := by
      rw [hd]; norm_num
    have hp := pointerForce_of_lt 140 100 _ hlt
    simp only [tickParticle]
    rw [hmv, hbx, hby, hp, hd]
    norm_num

/-- C4 (amended): the negated velocity and the clamped position hold right
after the boundary-reflection step (before the pointer-force step of the same
tick, which may change the velocity again): if the position update leaves
`x ≤ 0` or `x ≥ w`, then after the bounce `vx` is the negation of the
pre-reflection `vx` and `x ∈ [0, w]`; identically for `y`, `vy`, `h`. -/
theorem bounce_reflects (w h : ℝ) (p : Particle) (hw : 0 ≤ w) (hh : 0 ≤ h) :
    ((p.x + p.vx ≤ 0 ∨ p.x + p.vx ≥ w) →
      (bounceY h (bounceX w (moveParticle p))).vx = -p.vx ∧
      0 ≤ (bounceY h (bounceX w (moveParticle p))).x ∧
      (bounceY h (bounceX w (moveParticle p))).x ≤ w) ∧
    ((p.y + p.vy ≤ 0 ∨ p.y + p.vy ≥ h) →
      (bounceY h (bounceX w (moveParticle p))).vy = -p.vy ∧
      0 ≤ (bounceY h (bounceX w (moveParticle p))).y ∧
      (bounceY h (bounceX w (moveParticle p))).y ≤ h) := by
  constructor
  · intro hx
    refine ⟨?_, (bounceY_keeps_x h _ ▸ (bounceX_x_mem w hw (moveParticle p)).1 :),
      (bounceY_keeps_x h _ ▸ (bounceX_x_mem w hw (moveParticle p)).2 :)⟩
    rw [bounceY_keeps_vx, bounceX_of_hit w (moveParticle p) hx]
    rfl
  · intro hy
    have hyc : (bounceX w (moveParticle p)).y ≤ 0 ∨ (bounceX w (moveParticle p)).y ≥ h := by
      rw [bounceX_keeps_y]
      exact hy
    rw [bounceY_of_hit h _ hyc]
    refine ⟨?_, le_max_left _ _, max_le hh (min_le_left _ _)⟩
    show -(bounceX w (moveParticle p)).vy = -p.vy
    rw [bounceX_keeps_vy]
    rfl

/-- C4 witness: viewport 100×100, particle at `x = 99`, `vx = 5`: the moved
`x = 104 ≥ 100`, and after the bounce `vx = -5` with `x ∈ [0, 100]`. -/
theorem bounce_reflects_witness :
    (bounceY 100 (bounceX 100 (moveParticle ⟨99, 50, 5, 0, 2, 1/4⟩))).vx = -(5 : ℝ) ∧
    0 ≤ (bounceY 100 (bounceX 100 (moveParticle ⟨99, 50, 5, 0, 2, 1/4⟩))).x ∧
    (bounceY 100 (bounceX 100 (moveParticle ⟨99, 50, 5, 0, 2, 1/4⟩))).x ≤ 100 :=
  (bounce_reflects 100 100 ⟨99, 50, 5, 0, 2, 1/4⟩ (by norm_num) (by norm_num)).1
    (Or.inr (by norm_num))

/-! ### Claim theorems: C5 position invariant -/

theorem resizeX_keeps_y (w : ℝ) (p : Particle) : (resizeX w p).y = p.y := by
  simp only [resizeX]; split <;> rfl

theorem resizeY_keeps_x (h : ℝ) (p : Particle) : (resizeY h p).x = p.x := by
  simp only [resizeY]; split <;> rfl

theorem resizeX_x_mem (w : ℝ) (hw : 0 ≤ w) (p : Particle) (hx0 : 0 ≤ p.x) :
    0 ≤ (resizeX w p).x ∧ (resizeX w p).x ≤ w := by
  simp only [resizeX]
  split
  · exact ⟨hw, le_refl w⟩
  · rename_i hc
    exact ⟨hx0, not_lt.mp hc⟩

theorem resizeY_y_mem (h : ℝ) (hh : 0 ≤ h) (p : Particle) (hy0 : 0 ≤ p.y) :
    0 ≤ (resizeY h p).y ∧ (resizeY h p).y ≤ h := by
  simp only [resizeY]
  split
  · exact ⟨hh, le_refl h⟩
  · rename_i hc
    exact ⟨hy0, not_lt.mp hc⟩

theorem tick_inBounds (w h mx my : ℝ) (hw : 0 ≤ w) (hh : 0 ≤ h) (p : Particle) :
    inBounds w h (tickParticle w h mx my p) := by
  unfold tickParticle inBounds
  refine ⟨?_, ?_, ?_, ?_⟩
  · rw [pointerForce_keeps_x, bounceY_keeps_x]
    exact (bounceX_x_mem w hw (moveParticle p)).1
  · rw [pointerForce_keeps_x, bounceY_keeps_x]
    exact (bounceX_x_mem w hw (moveParticle p)).2
  · rw [pointerForce_keeps_y]
    exact (bounceY_y_mem h hh _).1
  · rw [pointerForce_keeps_y]
    exact (bounceY_y_mem h hh _).2

/-- C5: for nonnegative viewport dimensions, the position invariant
`(x, y) ∈ [0, w] × [0, h]` holds at particle creation (with the uniform draws
in `[0, 1)` that `Math.random` produces), is preserved (indeed re-established)
by every per-tick update, and is preserved by the resize handler for any new
nonnegative viewport. -/
theorem particle_position_invariant (w h w2 h2 mx my rx ry rvx rvy rs ro : ℝ) (p : Particle)
    (hw : 0 ≤ w) (hh : 0 ≤ h) (hw2 : 0 ≤ w2) (hh2 : 0 ≤ h2)
    (hrx0 : 0 ≤ rx) (hrx1 : rx < 1) (hry0 : 0 ≤ ry) (hry1 : ry < 1) :
    inBounds w h (createParticle w h rx ry rvx rvy rs ro) ∧
    (inBounds w h p → inBounds w h (tickParticle w h mx my p)) ∧
    (inBounds w h p → inBounds w2 h2 (handleResize w2 h2 p)) := by
  refine ⟨?_, fun _ => tick_inBounds w h mx my hw hh p, fun hp => ?_⟩
  · simp only [createParticle, random, inBounds]
    refine ⟨?_, ?_, ?_, ?_⟩
    · nlinarith [mul_nonneg hrx0 hw]
    · nlinarith [mul_le_mul_of_nonneg_right hrx1.le hw]
    · nlinarith [mul_nonneg hry0 hh]
    · nlinarith [mul_le_mul_of_nonneg_right hry1.le hh]
  · obtain ⟨hx0, hxw, hy0, hyh⟩ := hp
    unfold handleResize inBounds
    have hqy : 0 ≤ (resizeX w2 p).y := by rw [resizeX_keeps_y]; exact hy0
    refine ⟨?_, ?_, (resizeY_y_mem h2 hh2 _ hqy).1, (resizeY_y_mem h2 hh2 _ hqy).2⟩
    · rw [resizeY_keeps_x]
      exact (resizeX_x_mem w2 hw2 p hx0).1
    · rw [resizeY_keeps_x]
      exact (resizeX_x_mem w2 hw2 p hx0).2

/-- C5 witness: the invariant at a concrete viewport (100×100, resized to
50×50), concrete draws `1/2` and a concrete in-bounds particle. -/
theorem particle_position_invariant_witness :
    inBounds 100 100 (createParticle 100 100 (1/2) (1/2) (1/2) (1/2) (1/2) (1/2)) ∧
    (inBounds 100 100 ⟨10, 10, 0, 0, 2, 1/4⟩ →
      inBounds 100 100 (tickParticle 100 100 0 0 ⟨10, 10, 0, 0, 2, 1/4⟩)) ∧
    (inBounds 100 100 ⟨10, 10, 0, 0, 2, 1/4⟩ →
      inBounds 50 50 (handleResize 50 50 ⟨10, 10, 0, 0, 2, 1/4⟩)) :=
  particle_position_invariant 100 100 50 50 0 0 (1/2) (1/2) (1/2) (1/2) (1/2) (1/2)
    ⟨10, 10, 0, 0, 2, 1/4⟩ (by norm_num) (by norm_num) (by norm_num) (by norm_num)
    (by norm_num) (by norm_num) (by norm_num) (by norm_num)

/-! ### Claim theorems: Typewriter Engine -/

theorem substring0_zero (t : String) : substring0 t 0 = "" := rfl

theorem textAt_mem (texts : List String) (i : Nat) (hi : i < texts.length) :
    textAt texts i ∈ texts := by
  unfold textAt
  rw [List.getD_eq_getElem texts "" hi]
  exact List.getElem_mem hi

theorem length_pos_of_ne_empty (t : String) (h : t ≠ "") : 0 < t.length := by
  cases t with
  | mk data =>
    cases data with
    | nil => exact absurd rfl h
    | cons c cs => simp [String.length]

theorem textAt_length_pos (texts : List String) (hall : ∀ t ∈ texts, t ≠ "")
    (i : Nat) (hi : i < texts.length) : 0 < (textAt texts i).length :=
  length_pos_of_ne_empty _ (hall _ (textAt_mem texts i hi))

/-- The single-step specification of `TypingEffect.type` on any state
satisfying the invariant: the invariant is preserved, the rendered text is the
prefix of the (post-state) current phrase of length (post-state) `charIndex`,
and the mode flips only at the two boundary conditions. -/
theorem typeStep_spec (texts : List String) (s : TypingState)
    (hne : texts ≠ []) (hall : ∀ t ∈ texts, t ≠ "") (hinv : TypingInv texts s) :
    TypingInv texts (typeStep texts s).1 ∧
    (typeStep texts s).2 =
      some (substring0 (textAt texts (typeStep texts s).1.textIndex)
        (typeStep texts s).1.charIndex) ∧
    ((typeStep texts s).1.isDeleting ≠ s.isDeleting →
      (s.isDeleting = false ∧
        (typeStep texts s).1.charIndex = ((textAt texts s.textIndex).length : Int)) ∨
      (s.isDeleting = true ∧ (typeStep texts s).1.charIndex = 0)) := by
  obtain ⟨hp, hti, hci, hdel, htyp⟩ := hinv
  have hlen : 0 < texts.length := List.length_pos.mpr hne
  cases hd : s.isDeleting with
  | true =>
    have hm := hdel hd
    by_cases hz : s.charIndex - 1 = 0
    · have hs1 : (typeStep texts s).1 =
          ⟨(s.textIndex + 1) % texts.length, 0, false, s.isPaused⟩ := by
        simp [typeStep, hp, hd, hz]
      have hs2 : (typeStep texts s).2 = some (substring0 (textAt texts s.textIndex) 0) := by
        simp [typeStep, hp, hd, hz]
      refine ⟨?_, ?_, fun _ => Or.inr ⟨rfl, by rw [hs1]⟩⟩
      · rw [hs1]
        refine ⟨hp, Nat.mod_lt _ hlen, le_refl 0, ?_, ?_⟩
        · exact fun hcon => nomatch hcon
        · intro _
          show (0 : Int) < ((textAt texts ((s.textIndex + 1) % texts.length)).length : Int)
          exact_mod_cast textAt_length_pos texts hall _ (Nat.mod_lt _ hlen)
      · rw [hs1, hs2]
        show some (substring0 (textAt texts s.textIndex) 0) =
          some (substring0 (textAt texts ((s.textIndex + 1) % texts.length)) 0)
        rw [substring0_zero, substring0_zero]
    · have hs1 : (typeStep texts s).1 = ⟨s.textIndex, s.charIndex - 1, true, s.isPaused⟩ := by
        simp [typeStep, hp, hd, hz]
      have hs2 : (typeStep texts s).2 =
          some (substring0 (textAt texts s.textIndex) (s.charIndex - 1)) := by
        simp [typeStep, hp, hd, hz]
      refine ⟨?_, ?_, fun hcon => absurd (by rw [hs1]) hcon⟩
      · rw [hs1]
        refine ⟨hp, hti, ?_, ?_, ?_⟩
        · show (0 : Int) ≤ s.charIndex - 1
          omega
        · intro _
          constructor
          · show (1 : Int) ≤ s.charIndex - 1
            omega
          · show s.charIndex - 1 ≤ ((textAt texts s.textIndex).length : Int)
            omega
        · exact fun hcon => nomatch hcon
      · rw [hs1, hs2]
  | false =>
    have hm := htyp hd
    by_cases hl : s.charIndex + 1 = ((textAt texts s.textIndex).length : Int)
    · have hs1 : (typeStep texts s).1 =
          ⟨s.textIndex, ((textAt texts s.textIndex).length : Int), true, s.isPaused⟩ := by
        simp [typeStep, hp, hd, hl]
      have hs2 : (typeStep texts s).2 =
          some (substring0 (textAt texts s.textIndex)
            ((textAt texts s.textIndex).length : Int)) := by
        simp [typeStep, hp, hd, hl]
      refine ⟨?_, ?_, fun _ => Or.inl ⟨rfl, by rw [hs1]⟩⟩
      · rw [hs1]
        refine ⟨hp, hti, ?_, ?_, ?_⟩
        · show (0 : Int) ≤ ((textAt texts s.textIndex).length : Int)
          omega
        · intro _
          constructor
          · show (1 : Int) ≤ ((textAt texts s.textIndex).length : Int)
            have := textAt_length_pos texts hall s.textIndex hti
            omega
          · exact le_refl _
        · exact fun hcon => nomatch hcon
      · rw [hs1, hs2]
    · have hs1 : (typeStep texts s).1 = ⟨s.textIndex, s.charIndex + 1, false, s.isPaused⟩ := by
        simp [typeStep, hp, hd, hl]
      have hs2 : (typeStep texts s).2 =
          some (substring0 (textAt texts s.textIndex) (s.charIndex + 1)) := by
        simp [typeStep, hp, hd, hl]
      refine ⟨?_, ?_, fun hcon => absurd (by rw [hs1]) hcon⟩
      · rw [hs1]
        refine ⟨hp, hti, ?_, ?_, ?_⟩
        · show (0 : Int) ≤ s.charIndex + 1
          omega
        · exact fun hcon => nomatch hcon
        · intro _
          show s.charIndex + 1 < ((textAt texts s.textIndex).length : Int)
          omega
      · rw [hs1, hs2]

theorem typingInv_init (texts : List String) (hne : texts ≠ [])
    (hall : ∀ t ∈ texts, t ≠ "") : TypingInv texts typingInitState := by
  refine ⟨rfl, List.length_pos.mpr hne, le_refl 0, ?_, ?_⟩
  · exact fun hcon => nomatch hcon
  · intro _
    show (0 : Int) < ((textAt texts 0).length : Int)
    exact_mod_cast textAt_length_pos texts hall 0 (List.length_pos.mpr hne)

theorem typingInv_at (texts : List String) (hne : texts ≠ [])
    (hall : ∀ t ∈ texts, t ≠ "") : ∀ n : Nat, TypingInv texts (typingStateAt texts n)
  | 0 => typingInv_init texts hne hall
  | n + 1 =>
    (typeStep_spec texts (typingStateAt texts n) hne hall
      (typingInv_at texts hne hall n)).1

/-- C7 (amended): for every phrase list that is non-empty and contains no
empty phrase, at every step the rendered text is the prefix of
`texts[textIndex]` of length `charIndex` (both taken after the step),
`charIndex` is a valid prefix length of that phrase, and the typing/deleting
mode changes only at the two boundary conditions (phrase fully typed, or
phrase fully erased). -/
theorem typewriter_prefix_invariant (texts : List String) (hne : texts ≠ [])
    (hall : ∀ t ∈ texts, t ≠ "") (n : Nat) :
    typingOutputAt texts n =
      some (substring0 (textAt texts (typingStateAt texts (n + 1)).textIndex)
        (typingStateAt texts (n + 1)).charIndex) ∧
    0 ≤ (typingStateAt texts (n + 1)).charIndex ∧
    (typingStateAt texts (n + 1)).charIndex ≤
      ((textAt texts (typingStateAt texts (n + 1)).textIndex).length : Int) ∧
    ((typingStateAt texts (n + 1)).isDeleting ≠ (typingStateAt texts n).isDeleting →
      ((typingStateAt texts n).isDeleting = false ∧
        (typingStateAt texts (n + 1)).charIndex =
          ((textAt texts (typingStateAt texts n).textIndex).length : Int)) ∨
      ((typingStateAt texts n).isDeleting = true ∧
        (typingStateAt texts (n + 1)).charIndex = 0)) := by
  obtain ⟨hinv', hout, hmode⟩ :=
    typeStep_spec texts (typingStateAt texts n) hne hall (typingInv_at texts hne hall n)
  obtain ⟨hp', hti', hci', hdel', htyp'⟩ := hinv'
  refine ⟨hout, hci', ?_, hmode⟩
  rw [show typingStateAt texts (n + 1) = (typeStep texts (typingStateAt texts n)).1 from rfl]
  cases hd' : (typeStep texts (typingStateAt texts n)).1.isDeleting with
  | false => exact le_of_lt (htyp' hd')
  | true => exact (hdel' hd').2

/-- C7 counterexample: with the phrase list `[""]` (non-empty, but its only
phrase is the empty string), after one step `charCount = 1` while the current
phrase has length `0`, so `charCount` is not a valid prefix length. -/
theorem typewriter_empty_phrase_counterexample :
    (typingStateAt [""] 1).charIndex = 1 ∧
    ((textAt [""] (typingStateAt [""] 1).textIndex).length : Int) = 0 ∧
    ¬((typingStateAt [""] 1).charIndex ≤
      ((textAt [""] (typingStateAt [""] 1).textIndex).length : Int)) := by
  refine ⟨?_, ?_, ?_⟩ <;> decide

/-- C7 witness: the prefix invariant at the phrase list `["A"]` after the
first step. -/
theorem typewriter_prefix_invariant_witness :
    typingOutputAt ["A"] 0 =
      some (substring0 (textAt ["A"] (typingStateAt ["A"] 1).textIndex)
        (typingStateAt ["A"] 1).charIndex) ∧
    0 ≤ (typingStateAt ["A"] 1).charIndex ∧
    (typingStateAt ["A"] 1).charIndex ≤
      ((textAt ["A"] (typingStateAt ["A"] 1).textIndex).length : Int) ∧
    ((typingStateAt ["A"] 1).isDeleting ≠ (typingStateAt ["A"] 0).isDeleting →
      ((typingStateAt ["A"] 0).isDeleting = false ∧
        (typingStateAt ["A"] 1).charIndex =
          ((textAt ["A"] (typingStateAt ["A"] 0).textIndex).length : Int)) ∨
      ((typingStateAt ["A"] 0).isDeleting = true ∧
        (typingStateAt ["A"] 1).charIndex = 0)) :=
  typewriter_prefix_invariant ["A"] (by decide) (by decide) 0

/-- C6: with phrases `["A", "BB"]` from the initial state, the rendered
sequence of the first six steps is `"A"`, `""`, `"B"`, `"BB"`, `"B"`, `""`,
and the whole sequence repeats with period 6 — cyclic, never skipping a
length. -/
theorem typewriter_cycle_example :
    (List.range 6).map (typingOutputAt ["A", "BB"]) =
      [some "A", some "", some "B", some "BB", some "B", some ""] ∧
    ∀ n : Nat, typingOutputAt ["A", "BB"] (n + 6) = typingOutputAt ["A", "BB"] n := by
  constructor
  · rfl
  · have hper : ∀ n : Nat, typingStateAt ["A", "BB"] (n + 6) = typingStateAt ["A", "BB"] n := by
      intro n
      induction n with
      | zero => rfl
      | succ k ih =>
        show (typeStep ["A", "BB"] (typingStateAt ["A", "BB"] (k + 6))).1 =
          (typeStep ["A", "BB"] (typingStateAt ["A", "BB"] k)).1
        rw [ih]
    intro n
    unfold typingOutputAt
    rw [hper n]
